import Mathlib

/-!
Verification of the migru-app frontend against its natural-language
specification. Each definition below is a shallow embedding of a function of
the repository (SvelteKit frontend in TypeScript); stateful code is embedded
as explicit state passing over record types, fetch calls as explicit outcome
values, and JavaScript numbers on the code paths in scope (severity sliders,
HRV counters, JSON payloads of the persisted stores) as integers.
-/

namespace Migru

/-! ## Log page and stores (src/frontend/routes/log/+page.svelte, src/lib/stores.ts) -/

/-- Entry pushed by saveLog in src/frontend/routes/log/+page.svelte (lines 60-67). -/
structure LogEntry where
  id : String
  date : String
  severity : Int
  symptoms : List String
  triggers : List String
  notes : String
deriving DecidableEq

/-- State touched by the log page: the userStatus, riskLevel, hrv and logs
stores of src/frontend/lib/stores.ts. -/
structure LogPageState where
  userStatus : String
  riskLevel : String
  hrv : Int
  logs : List LogEntry
deriving DecidableEq

/-- Embedding of saveLog (src/frontend/routes/log/+page.svelte lines 53-88):
builds the new entry from the form fields (the generated UUID and ISO date are
passed in as arguments), prepends it to the logs store, then updates
userStatus, riskLevel and hrv by the severity thresholds. -/
def saveLog (id date : String) (severity : Int) (symptoms triggers : List String)
    (notes : String) (s : LogPageState) : LogPageState :=
  let newEntry : LogEntry :=
    { id := id, date := date, severity := severity, symptoms := symptoms,
      triggers := triggers, notes := notes }
  let s1 : LogPageState := { s with logs := newEntry :: s.logs }
  if severity ≥ 7 then
    { s1 with userStatus := "Attack", riskLevel := "High", hrv := max 20 (s1.hrv - 5) }
  else if severity ≥ 4 then
    { s1 with userStatus := "Prodromal", riskLevel := "Moderate", hrv := max 30 (s1.hrv - 2) }
  else
    { s1 with userStatus := "Balanced", riskLevel := "Low", hrv := min 100 (s1.hrv + 2) }

/-- LogEntry of src/lib/stores.ts (lines 8-15): id, date, a kind tag and
optional severity, symptoms and notes. -/
structure LibLogEntry where
  id : String
  date : String
  type : String
  severity : Option Int
  symptoms : Option (List String)
  notes : Option String
deriving DecidableEq

/-- Status slice of AppState (src/lib/stores.ts lines 18-22). -/
structure LibStatus where
  current : String
  hrv : String
  lastCheck : String
deriving DecidableEq

/-- Forecast slice of AppState (src/lib/stores.ts lines 23-27). -/
structure LibForecast where
  riskLevel : String
  pressureTrend : String
  humidity : Int
deriving DecidableEq

/-- AppState persisted by src/lib/stores.ts (lines 17-29). -/
structure LibAppState where
  status : LibStatus
  forecast : LibForecast
  logs : List LibLogEntry
deriving DecidableEq

/-- Argument of addLog: a LibLogEntry with id and date omitted
(Omit of LogEntry over id and date in src/lib/stores.ts line 105). -/
structure LibLogInput where
  type : String
  severity : Option Int
  symptoms : Option (List String)
  notes : Option String
deriving DecidableEq

/-- Embedding of addLog (src/lib/stores.ts lines 105-114): builds a full entry
from the input plus the generated id and date and prepends it to appState.logs,
leaving the rest of the state unchanged. -/
def addLog (entry : LibLogInput) (id date : String) (state : LibAppState) : LibAppState :=
  let newEntry : LibLogEntry :=
    { id := id, date := date, type := entry.type, severity := entry.severity,
      symptoms := entry.symptoms, notes := entry.notes }
  { state with logs := newEntry :: state.logs }

/-! ## Backend status sync (src/frontend/lib/stores.ts lines 75-96) -/

/-- Body of a successful GET /api/status response as read by syncWithBackend. -/
structure StatusBody where
  status : String
  risk_level : String
  hrv : Int
deriving DecidableEq

/-- Outcome of the fetch inside syncWithBackend: either the promise rejects
(network error, modelled as thrown) or a response arrives with its ok flag. -/
inductive FetchOutcome where
  | thrown
  | response (ok : Bool) (body : StatusBody)
deriving DecidableEq

/-- The three stores written by syncWithBackend. -/
structure SyncStores where
  userStatus : String
  riskLevel : String
  hrv : Int
deriving DecidableEq

/-- Embedding of syncWithBackend (src/frontend/lib/stores.ts lines 75-96): on
an ok response the three stores are set from the body; a non-ok response only
logs, and a thrown fetch is swallowed by the try/catch. The function is total:
every outcome yields a state, which is the shallow form of the claim that no
exception escapes. -/
def syncWithBackend (outcome : FetchOutcome) (s : SyncStores) : SyncStores :=
  match outcome with
  | .thrown => s
  | .response ok body =>
    if ok then
      { userStatus := body.status, riskLevel := body.risk_level, hrv := body.hrv }
    else s

/-! ## Risk-keyed message dictionaries (ForecastCard.svelte, dashboard +page.svelte) -/

/-- Embedding of the friendlyMessage dictionary of
src/frontend/lib/components/ForecastCard.svelte (lines 7-12): an object
literal keyed by the riskLevel store value, with the JS or-fallback for a
missing key. -/
def friendlyMessage (risk : String) : String :=
  if risk = "Low" then "Clear skies ahead"
  else if risk = "Moderate" then "Stay aware, stay prepared"
  else if risk = "High" then "Take it slow today"
  else "Checking conditions..."

/-- Embedding of the tipMessage dictionary of ForecastCard.svelte
(lines 14-18); the or-fallback for a missing key is the empty string. -/
def tipMessage (risk : String) : String :=
  if risk = "Low" then "Good time to get things done"
  else if risk = "Moderate" then "Watch for early warning signs"
  else if risk = "High" then "Rest and hydrate"
  else ""

/-- Emoji-and-text pair of the dashboard dailyTip object. -/
structure TipCard where
  emoji : String
  text : String
deriving DecidableEq

/-- Embedding of the dailyTip dictionary of the dashboard page
(src/routes/+page.svelte, lines 16-21): keyed by the riskLevel store value,
with a fixed fallback card for any other value. -/
def dailyTip (risk : String) : TipCard :=
  if risk = "Low" then { emoji := "✓", text := "Good conditions today. Stick to your routine." }
  else if risk = "Moderate" then { emoji := "📋", text := "Stay hydrated and watch for early signs." }
  else if risk = "High" then { emoji := "⚠️", text := "Consider taking it slow and staying prepared." }
  else { emoji := "→", text := "One step at a time." }

/-! ## Requests with bearer tokens (src/frontend/lib/stores.ts, onboarding page,
diagnostics page) -/

/-- Embedding of the JS idiom localStorage.getItem of clerk_token or-else
dev_token: a stored empty string is falsy in JS and also falls back. -/
def clerkToken (stored : Option String) : String :=
  match stored with
  | none => "dev_token"
  | some t => if t = "" then "dev_token" else t

/-- Shape of an outgoing fetch request: url, method and header list. -/
structure ApiRequest where
  url : String
  method : String
  headers : List (String × String)
deriving DecidableEq

/-- Base url used by the V2 frontend (src/frontend/lib/stores.ts line 9). -/
def apiUrl : String := "http://localhost:8000"

/-- Request issued by syncWithBackend (src/frontend/lib/stores.ts lines 78-83):
GET /api/status with the bearer Authorization header. -/
def syncStatusRequest (stored : Option String) : ApiRequest :=
  { url := apiUrl ++ "/api/status", method := "GET",
    headers := [("Authorization", "Bearer " ++ clerkToken stored)] }

/-- Request issued by the onboarding page onMount
(src/frontend/routes/onboarding/+page.svelte lines 29-36): GET
/api/onboarding/status with the bearer Authorization header. -/
def onboardingStatusRequest (stored : Option String) : ApiRequest :=
  { url := apiUrl ++ "/api/onboarding/status", method := "GET",
    headers := [("Authorization", "Bearer " ++ clerkToken stored)] }

/-- Request issued by testBackend on the diagnostics page (unnamed source,
testBackend): a bare fetch of /api/status with no headers at all. -/
def testBackendRequest : ApiRequest :=
  { url := apiUrl ++ "/api/status", method := "GET", headers := [] }

/-! ## Audio upload as base64 JSON (voiceRecorder.ts, onboarding page) -/

/-- The 64 characters of the standard base64 alphabet. -/
def base64Table : List Char :=
  ("ABCDEFGHIJKLMNOPQRSTUVWXYZabcdefghijklmnopqrstuvwxyz0123456789+/").data

/-- Character for a 6-bit group. -/
def b64Char (n : Nat) : Char := base64Table.getD n 'A'

/-- Base64 of a byte list, three bytes at a time, with padding as produced by
the browser FileReader readAsDataURL. -/
def base64Chunks : List Nat → List Char
  | [] => []
  | [a] => [b64Char (a / 4), b64Char (a % 4 * 16), '=', '=']
  | [a, b] => [b64Char (a / 4), b64Char (a % 4 * 16 + b / 16), b64Char (b % 16 * 4), '=']
  | a :: b :: c :: rest =>
      b64Char (a / 4) :: b64Char (a % 4 * 16 + b / 16) :: b64Char (b % 16 * 4 + c / 64)
        :: b64Char (c % 64) :: base64Chunks rest

/-- Base64 encoding of a blob byte list as a string. -/
def base64Encode (bytes : List Nat) : String := String.mk (base64Chunks bytes)

/-- Data url produced by FileReader.readAsDataURL for a blob with the given
mime type: the data scheme header, the base64 marker, a comma, then the base64
payload. -/
def dataURL (mime : String) (bytes : List Nat) : String :=
  "data:" ++ mime ++ ";base64," ++ base64Encode bytes

/-- Splitting a character list at every comma, as JS String.split with a comma
separator does. -/
def splitOnComma : List Char → List (List Char)
  | [] => [[]]
  | c :: cs =>
    if c = ',' then [] :: splitOnComma cs
    else
      match splitOnComma cs with
      | [] => [[c]]
      | g :: gs => (c :: g) :: gs

/-- Embedding of the JS expression result.split with a comma then index 1,
used by blobToBase64 (src/frontend/lib/utils/voiceRecorder.ts line 115). -/
def jsSplitCommaSecond (s : String) : String :=
  String.mk ((splitOnComma s.data).getD 1 [])

/-- Embedding of VoiceRecorder.blobToBase64
(src/frontend/lib/utils/voiceRecorder.ts lines 111-121): reads the blob as a
data url and keeps the part after the comma. The recorded blobs carry the
audio/webm mime type (voiceRecorder.ts line 73). -/
def blobToBase64 (bytes : List Nat) : String :=
  jsSplitCommaSecond (dataURL "audio/webm" bytes)

/-- Body and headers of the POST /api/voice/baseline request. -/
structure BaselineRequest where
  url : String
  method : String
  headers : List (String × String)
  audio_chunks : List String
deriving DecidableEq

/-- Embedding of sendBaselineToBackend
(src/frontend/routes/onboarding/+page.svelte lines 132-165) on the live path
where the recorder exists: each recorded blob is converted with blobToBase64
and the resulting strings form the audio_chunks field of the JSON body. -/
def sendBaselineToBackend (stored : Option String) (chunks : List (List Nat)) : BaselineRequest :=
  { url := apiUrl ++ "/api/voice/baseline", method := "POST",
    headers := [("Authorization", "Bearer " ++ clerkToken stored),
                ("Content-Type", "application/json")],
    audio_chunks := chunks.map blobToBase64 }

/-! ## Hume auth fallback (diagnostics page; backend modelled from the spec) -/

/-- Response of the GET /hume/auth endpoint. -/
structure HumeAuthResponse where
  status : Nat
  access_token : String
deriving DecidableEq

/-- Modelled from the spec: the FastAPI handler for GET /hume/auth is not
among the available sources (only its frontend callers are). Per the spec,
failures surface as a fallback mock value — a placeholder OAuth token when
credentials are absent — rather than an error response; with credentials
present the endpoint proxies the outbound OAuth token request (here passed in
as oauthToken). The placeholder literal is the one the diagnostics page in the
sources compares against. -/
def humeAuth (creds : Option (String × String)) (oauthToken : String) : HumeAuthResponse :=
  match creds with
  | none => { status := 200, access_token := "mock_token_for_demo_purposes" }
  | some _ => { status := 200, access_token := oauthToken }

/-- Outcome of the fetch inside testAuth on the diagnostics page. -/
inductive AuthFetchOutcome where
  | thrown
  | response (ok : Bool) (access_token : String)
deriving DecidableEq

/-- Embedding of the classification in testAuth on the diagnostics page
(unnamed source, testAuth): an ok response whose access_token is the mock
literal is classified warning, any other ok response success, and a non-ok or
thrown fetch error. -/
def testAuthClassify : AuthFetchOutcome → String
  | .thrown => "error"
  | .response ok tok =>
    if ok then
      if tok = "mock_token_for_demo_purposes" then "warning" else "success"
    else "error"

/-! ## Server hook route guard (unnamed source, hooks.server handle) -/

/-- Embedding of JS String.startsWith over the character lists of the two
strings. -/
def jsStartsWith (s p : String) : Bool := p.data.isPrefixOf s.data

/-- Public-route predicate of the handle hook (unnamed source, lines 10-15):
the root path, the sign-in and sign-up routes, and the public api fallback. -/
def isPublicRoute (pathname : String) : Bool :=
  pathname = "/" || jsStartsWith pathname "/sign-in" || jsStartsWith pathname "/sign-up"
    || jsStartsWith pathname "/api/public"

/-- Result of the handle hook: a thrown redirect or resolving the request. -/
inductive HandleResult where
  | redirect (status : Nat) (location : String)
  | resolve
deriving DecidableEq

/-- Embedding of the second handler in the handle sequence (unnamed source,
lines 5-24): on a private route without an authenticated userId it throws a
307 redirect to sign-in carrying the pathname, otherwise it resolves. -/
def handle (pathname : String) (userId : Option String) : HandleResult :=
  if ¬isPublicRoute pathname ∧ userId = none then
    .redirect 307 ("/sign-in?redirect_url=" ++ pathname)
  else
    .resolve

/-! ## JSON round trip of the persisted stores (src/lib/stores.ts lines 46-57,
src/frontend/lib/stores.ts lines 26-59)

The persisted store helpers write JSON.stringify of the store value to
localStorage and read it back with JSON.parse when a store is constructed for
the same key. The JSON fragment the stores exchange is modelled by the Json
type below with integer numbers; the serializer mirrors the compact output of
JSON.stringify (string escaping shown for the quote and backslash characters),
and the parser accepts exactly such compact documents, returning none on
malformed input the way JSON.parse throws. -/

/-- JSON values persisted by the stores. -/
inductive Json where
  | null
  | bool (b : Bool)
  | num (n : Int)
  | str (s : String)
  | arr (elems : List Json)
  | obj (fields : List (String × Json))

/-- Opening brace character. -/
def lbraceChar : Char := Char.ofNat 123

/-- Closing brace character. -/
def rbraceChar : Char := Char.ofNat 125

/-- String-body escaping done by JSON.stringify for the quote and backslash
characters. -/
def escapeChars : List Char → List Char
  | [] => []
  | c :: cs =>
    if c = '"' then '\\' :: '"' :: escapeChars cs
    else if c = '\\' then '\\' :: '\\' :: escapeChars cs
    else c :: escapeChars cs

/-- Decimal digits of a natural number, most significant first, with explicit
recursion fuel (one division by ten per unit of fuel). -/
def natCharsAux : Nat → Nat → List Char
  | 0, _ => []
  | f+1, n =>
    if n < 10 then [Nat.digitChar n]
    else natCharsAux f (n / 10) ++ [Nat.digitChar (n % 10)]

/-- Decimal digits of a natural number. -/
def natChars (n : Nat) : List Char := natCharsAux (n+1) n

/-- Decimal form of an integer as JSON.stringify prints it. -/
def intChars (n : Int) : List Char :=
  if n < 0 then '-' :: natChars n.natAbs else natChars n.toNat

mutual

/-- Characters of the compact JSON.stringify output for a value. -/
def printJson : Json → List Char
  | .null => 'n' :: 'u' :: 'l' :: 'l' :: []
  | .bool true => 't' :: 'r' :: 'u' :: 'e' :: []
  | .bool false => 'f' :: 'a' :: 'l' :: 's' :: 'e' :: []
  | .num n => intChars n
  | .str s => '"' :: escapeChars s.data ++ ['"']
  | .arr es => '[' :: printElems es ++ [']']
  | .obj fs => lbraceChar :: printFields fs ++ [rbraceChar]

/-- Comma-separated characters of array elements. -/
def printElems : List Json → List Char
  | [] => []
  | [x] => printJson x
  | x :: xs => printJson x ++ ',' :: printElems xs

/-- Comma-separated characters of object fields, each a quoted escaped key, a
colon and the value. -/
def printFields : List (String × Json) → List Char
  | [] => []
  | [(k, v)] => '"' :: escapeChars k.data ++ '"' :: ':' :: printJson v
  | (k, v) :: xs =>
      ('"' :: escapeChars k.data ++ '"' :: ':' :: printJson v) ++ ',' :: printFields xs

end

mutual

/-- Size measure of a value used as parser fuel. -/
def jsize : Json → Nat
  | .null => 1
  | .bool _ => 1
  | .num _ => 1
  | .str _ => 1
  | .arr es => 1 + jsizeList es
  | .obj fs => 1 + jsizeFields fs

/-- Size measure of an element list. -/
def jsizeList : List Json → Nat
  | [] => 0
  | x :: xs => 1 + jsize x + jsizeList xs

/-- Size measure of a field list. -/
def jsizeFields : List (String × Json) → Nat
  | [] => 0
  | (_, v) :: xs => 1 + jsize v + jsizeFields xs

end

/-- Scanning a JSON string body up to its closing quote, undoing the escaping:
returns the decoded characters and the rest of the input. -/
def parseStringBody : List Char → Option (List Char × List Char)
  | [] => none
  | c :: cs =>
    if c = '"' then some ([], cs)
    else if c = '\\' then
      match cs with
      | [] => none
      | e :: cs2 =>
        if e = '"' then (parseStringBody cs2).map (fun p => ('"' :: p.1, p.2))
        else if e = '\\' then (parseStringBody cs2).map (fun p => ('\\' :: p.1, p.2))
        else none
    else (parseStringBody cs).map (fun p => (c :: p.1, p.2))

/-- Matching a literal character sequence at the start of the input. -/
def dropLit : List Char → List Char → Option (List Char)
  | [], cs => some cs
  | _ :: _, [] => none
  | p :: ps, c :: cs => if c = p then dropLit ps cs else none

/-- Longest digit run at the start of the input, with the rest. -/
def takeDigits : List Char → List Char × List Char
  | [] => ([], [])
  | c :: cs =>
    if c.isDigit then
      let p := takeDigits cs
      (c :: p.1, p.2)
    else ([], c :: cs)

/-- Value of a decimal digit run. -/
def digitsVal (l : List Char) : Nat :=
  l.foldl (fun acc c => acc * 10 + (c.toNat - 48)) 0

mutual

/-- Recursive-descent JSON value parser over fuel: strings, arrays, objects,
the three keywords and integer numbers, exactly the language printJson emits. -/
def parseVal : Nat → List Char → Option (Json × List Char)
  | 0, _ => none
  | Nat.succ f, cs =>
    match cs with
    | [] => none
    | c :: cs1 =>
      if c = '"' then (parseStringBody cs1).map (fun p => (Json.str (String.mk p.1), p.2))
      else if c = '[' then
        match cs1 with
        | [] => none
        | c2 :: r =>
          if c2 = ']' then some (Json.arr [], r)
          else (parseElems f cs1).map (fun p => (Json.arr p.1, p.2))
      else if c = lbraceChar then
        match cs1 with
        | [] => none
        | c2 :: r =>
          if c2 = rbraceChar then some (Json.obj [], r)
          else (parseFields f cs1).map (fun p => (Json.obj p.1, p.2))
      else if c = 't' then (dropLit ('r' :: 'u' :: 'e' :: []) cs1).map (fun r => (Json.bool true, r))
      else if c = 'f' then (dropLit ('a' :: 'l' :: 's' :: 'e' :: []) cs1).map (fun r => (Json.bool false, r))
      else if c = 'n' then (dropLit ('u' :: 'l' :: 'l' :: []) cs1).map (fun r => (Json.null, r))
      else if c = '-' then
        match takeDigits cs1 with
        | ([], _) => none
        | (ds, r) => some (Json.num (-(digitsVal ds : Int)), r)
      else if c.isDigit then
        match takeDigits (c :: cs1) with
        | ([], _) => none
        | (ds, r) => some (Json.num ((digitsVal ds : Int)), r)
      else none

/-- One-or-more comma-separated values closed by a bracket. -/
def parseElems : Nat → List Char → Option (List Json × List Char)
  | 0, _ => none
  | Nat.succ f, cs =>
    match parseVal f cs with
    | none => none
    | some (v, r) =>
      match r with
      | [] => none
      | c :: r2 =>
        if c = ',' then (parseElems f r2).map (fun p => (v :: p.1, p.2))
        else if c = ']' then some ([v], r2)
        else none

/-- One-or-more comma-separated key-value fields closed by a brace. -/
def parseFields : Nat → List Char → Option (List (String × Json) × List Char)
  | 0, _ => none
  | Nat.succ f, cs =>
    match cs with
    | [] => none
    | c0 :: cs1 =>
      if c0 = '"' then
        match parseStringBody cs1 with
        | none => none
        | some (k, r1) =>
          match r1 with
          | [] => none
          | c1 :: r2 =>
            if c1 = ':' then
              match parseVal f r2 with
              | none => none
              | some (v, r3) =>
                match r3 with
                | [] => none
                | c :: r4 =>
                  if c = ',' then
                    (parseFields f r4).map (fun p => ((String.mk k, v) :: p.1, p.2))
                  else if c = rbraceChar then some ([(String.mk k, v)], r4)
                  else none
            else none
      else none

end

/-- Embedding of JSON.stringify restricted to the persisted store values. -/
def jsonStringify (v : Json) : String := String.mk (printJson v)

/-- Embedding of JSON.parse on the documents the stores write: none models the
SyntaxError JSON.parse throws on malformed input. The fuel is one more than
the input length, which the round-trip theorem shows suffices for every
serialized value. -/
def jsonParse (s : String) : Option Json :=
  match parseVal (s.data.length + 1) s.data with
  | some (v, []) => some v
  | _ => none

/-- The localStorage contents, a list of key-value pairs of strings. -/
abbrev Storage := List (String × String)

/-- Embedding of localStorage.getItem. -/
def getItem (storage : Storage) (key : String) : Option String :=
  match storage with
  | [] => none
  | (k, v) :: rest => if k = key then some v else getItem rest key

/-- Embedding of localStorage.setItem. -/
def setItem (storage : Storage) (key value : String) : Storage :=
  match storage with
  | [] => [(key, value)]
  | (k, v) :: rest => if k = key then (key, value) :: rest else (k, v) :: setItem rest key value

/-- The write path of both persisted store helpers: the subscribe callback
stores JSON.stringify of the current value under the store key
(src/lib/stores.ts lines 51-55, src/frontend/lib/stores.ts lines 40-41). -/
def persistValue (storage : Storage) (key : String) (v : Json) : Storage :=
  setItem storage key (jsonStringify v)

/-- Embedding of the initial value computed by createPersistedStore
(src/lib/stores.ts lines 46-49) in the browser: a truthy saved item is handed
to JSON.parse with no try/catch, so a malformed item makes the construction
throw (the error case); a missing or empty item gives the start value. -/
def createPersistedStore (key : String) (startValue : Json) (storage : Storage) :
    Except String Json :=
  match getItem storage key with
  | none => .ok startValue
  | some saved =>
    if saved = "" then .ok startValue
    else
      match jsonParse saved with
      | some v => .ok v
      | none => .error "SyntaxError"

/-- Embedding of the initial value computed by createPersistentStore
(src/frontend/lib/stores.ts lines 26-39) in the browser: a truthy stored item
is parsed inside try/catch, and a parse failure leaves the start value. -/
def createPersistentStore (key : String) (startValue : Json) (storage : Storage) : Json :=
  match getItem storage key with
  | none => startValue
  | some json =>
    if json = "" then startValue
    else
      match jsonParse json with
      | some v => v
      | none => startValue

/-! ## Support definitions for the round-trip development -/

/-- Rest-of-input shapes a serialized value may be followed by inside a larger
document: nothing, or a separator or closer. -/
def delimOk : List Char → Bool
  | [] => true
  | c :: _ => c = ',' || c = ']' || c = rbraceChar

/-- Characters a serialized JSON value can start with. -/
def isValueStart (c : Char) : Bool :=
  c = '"' || c = '[' || c = lbraceChar || c = 't' || c = 'f' || c = 'n' || c = '-' || c.isDigit

/-- Round-trip statement at a given fuel: the parser run on the printer output
followed by a well-delimited rest returns exactly the printed value and the
rest, and likewise for the element and field lists. -/
def RoundTrip (f : Nat) : Prop :=
  (∀ v rest, jsize v < f → delimOk rest = true →
      parseVal f (printJson v ++ rest) = some (v, rest))
  ∧ (∀ es rest, es ≠ [] → jsizeList es < f →
      parseElems f (printElems es ++ ']' :: rest) = some (es, rest))
  ∧ (∀ fs rest, fs ≠ [] → jsizeFields fs < f →
      parseFields f (printFields fs ++ rbraceChar :: rest) = some (fs, rest))

/-! ## Claims about the log page and the stores -/

/-- C1: saving a log through the logging form prepends an entry carrying
exactly the given severity, symptoms, triggers and notes to the logs store, so
the new entry is the head and every previously stored entry stays; likewise
addLog prepends an entry with the given fields to appState.logs. -/
theorem claim1_log_prepend (id date : String) (severity : Int)
    (symptoms triggers : List String) (notes : String) (s : LogPageState)
    (entry : LibLogInput) (lid ldate : String) (st : LibAppState) :
    (saveLog id date severity symptoms triggers notes s).logs
      = { id := id, date := date, severity := severity, symptoms := symptoms,
          triggers := triggers, notes := notes : LogEntry } :: s.logs
    ∧ (addLog entry lid ldate st).logs
      = { id := lid, date := ldate, type := entry.type, severity := entry.severity,
          symptoms := entry.symptoms, notes := entry.notes : LibLogEntry } :: st.logs := by
  constructor
  · simp only [saveLog]
    split_ifs <;> rfl
  · rfl

/-- C2: the severity thresholds of saveLog set the status stores to fixed
values: severity at least 7 gives Attack and High, severity in the interval
from 4 up to but excluding 7 gives Prodromal and Moderate, and severity below
4 gives Balanced and Low. -/
theorem claim2_severity_thresholds (id date : String) (severity : Int)
    (symptoms triggers : List String) (notes : String) (s : LogPageState) :
    (severity ≥ 7 →
      (saveLog id date severity symptoms triggers notes s).userStatus = "Attack"
      ∧ (saveLog id date severity symptoms triggers notes s).riskLevel = "High")
    ∧ (4 ≤ severity ∧ severity < 7 →
      (saveLog id date severity symptoms triggers notes s).userStatus = "Prodromal"
      ∧ (saveLog id date severity symptoms triggers notes s).riskLevel = "Moderate")
    ∧ (severity < 4 →
      (saveLog id date severity symptoms triggers notes s).userStatus = "Balanced"
      ∧ (saveLog id date severity symptoms triggers notes s).riskLevel = "Low") := by
  refine ⟨fun h => ?_, fun h => ?_, fun h => ?_⟩ <;>
    simp only [saveLog] <;> split_ifs <;> first | exact ⟨rfl, rfl⟩ | omega

/-- C2 witness: concrete severities 8, 5 and 2 hit the three buckets. -/
theorem claim2_witness :
    (saveLog "i" "d" 8 [] [] "" ⟨"Balanced", "Low", 65, []⟩).userStatus = "Attack"
    ∧ (saveLog "i" "d" 5 [] [] "" ⟨"Balanced", "Low", 65, []⟩).userStatus = "Prodromal"
    ∧ (saveLog "i" "d" 2 [] [] "" ⟨"Balanced", "Low", 65, []⟩).userStatus = "Balanced" :=
  ⟨((claim2_severity_thresholds "i" "d" 8 [] [] "" ⟨"Balanced", "Low", 65, []⟩).1
      (by decide)).1,
   ((claim2_severity_thresholds "i" "d" 5 [] [] "" ⟨"Balanced", "Low", 65, []⟩).2.1
      (by decide)).1,
   ((claim2_severity_thresholds "i" "d" 2 [] [] "" ⟨"Balanced", "Low", 65, []⟩).2.2
      (by decide)).1⟩

/-- C3: a run of syncWithBackend whose fetch throws or whose response is not
ok leaves the userStatus, riskLevel and hrv stores unchanged; the embedding is
a total function, which is the shallow form of no exception escaping. -/
theorem claim3_sync_error_absorbed (outcome : FetchOutcome) (s : SyncStores)
    (h : outcome = .thrown ∨ ∃ body, outcome = .response false body) :
    syncWithBackend outcome s = s := by
  rcases h with h | ⟨body, h⟩ <;> subst h <;> simp [syncWithBackend]

/-- C3 witness: a thrown fetch and a 500-style non-ok response both leave a
concrete store state untouched. -/
theorem claim3_witness :
    syncWithBackend .thrown ⟨"Balanced", "Low", 65⟩ = ⟨"Balanced", "Low", 65⟩
    ∧ syncWithBackend (.response false ⟨"Attack", "High", 20⟩) ⟨"Balanced", "Low", 65⟩
      = ⟨"Balanced", "Low", 65⟩ :=
  ⟨claim3_sync_error_absorbed .thrown ⟨"Balanced", "Low", 65⟩ (Or.inl rfl),
   claim3_sync_error_absorbed (.response false ⟨"Attack", "High", 20⟩) ⟨"Balanced", "Low", 65⟩
     (Or.inr ⟨⟨"Attack", "High", 20⟩, rfl⟩)⟩

/-- C9: starting from an hrv value in the interval from 20 to 100, the hrv
value after saveLog is again in that interval, for every severity. -/
theorem claim9_hrv_bounds (id date : String) (severity : Int)
    (symptoms triggers : List String) (notes : String) (s : LogPageState)
    (h1 : 20 ≤ s.hrv) (h2 : s.hrv ≤ 100) :
    20 ≤ (saveLog id date severity symptoms triggers notes s).hrv
    ∧ (saveLog id date severity symptoms triggers notes s).hrv ≤ 100 := by
  simp only [saveLog]
  split_ifs <;> constructor <;> simp only [] <;> omega

/-- C9 witness: a concrete state with hrv 65 and severity 8 stays in bounds. -/
theorem claim9_witness :
    20 ≤ (saveLog "i" "d" 8 [] [] "" ⟨"Balanced", "Low", 65, []⟩).hrv
    ∧ (saveLog "i" "d" 8 [] [] "" ⟨"Balanced", "Low", 65, []⟩).hrv ≤ 100 :=
  claim9_hrv_bounds "i" "d" 8 [] [] "" ⟨"Balanced", "Low", 65, []⟩ (by decide) (by decide)

/-! ## Claim about the risk-keyed message dictionaries -/

/-- C4: the forecast card message and tip and the dashboard daily tip are
selected from fixed dictionaries keyed by the risk bucket, and any riskLevel
value outside the three keys selects the fixed fallbacks: the checking-
conditions message on the card, the empty tip string on the card, and the
one-step-at-a-time tip card on the dashboard. -/
theorem claim4_risk_messages :
    friendlyMessage "Low" = "Clear skies ahead"
    ∧ friendlyMessage "Moderate" = "Stay aware, stay prepared"
    ∧ friendlyMessage "High" = "Take it slow today"
    ∧ tipMessage "Low" = "Good time to get things done"
    ∧ tipMessage "Moderate" = "Watch for early warning signs"
    ∧ tipMessage "High" = "Rest and hydrate"
    ∧ dailyTip "Low" = { emoji := "✓", text := "Good conditions today. Stick to your routine." }
    ∧ dailyTip "Moderate" = { emoji := "📋", text := "Stay hydrated and watch for early signs." }
    ∧ dailyTip "High" = { emoji := "⚠️", text := "Consider taking it slow and staying prepared." }
    ∧ (∀ r, r ≠ "Low" → r ≠ "Moderate" → r ≠ "High" →
        friendlyMessage r = "Checking conditions..."
        ∧ tipMessage r = ""
        ∧ dailyTip r = { emoji := "→", text := "One step at a time." }) := by
  refine ⟨rfl, rfl, rfl, rfl, rfl, rfl, rfl, rfl, rfl, fun r h1 h2 h3 => ?_⟩
  simp [friendlyMessage, tipMessage, dailyTip, h1, h2, h3]

/-- C4 witness: the sync placeholder value Unknown is outside the dictionary
and gets the fallbacks. -/
theorem claim4_witness :
    friendlyMessage "Unknown" = "Checking conditions..."
    ∧ tipMessage "Unknown" = ""
    ∧ dailyTip "Unknown" = { emoji := "→", text := "One step at a time." } :=
  claim4_risk_messages.2.2.2.2.2.2.2.2.2 "Unknown" (by decide) (by decide) (by decide)

/-! ## Claims about requests, auth fallback and the route guard -/

/-- C6 counterexample: not every frontend request to an api endpoint carries a
bearer Authorization header — the diagnostics page fetches /api/status with no
headers at all. -/
theorem claim6_counterexample :
    testBackendRequest.url = apiUrl ++ "/api/status"
    ∧ testBackendRequest.headers.lookup "Authorization" = none :=
  ⟨rfl, rfl⟩

/-- C6 as amended: the requests of syncWithBackend and of the onboarding
status check carry an Authorization header whose value is Bearer followed by
the stored Clerk token, with the literal dev_token used when no token (or an
empty one) is stored. -/
theorem claim6_bearer_headers (stored : Option String) :
    (syncStatusRequest stored).headers.lookup "Authorization"
      = some ("Bearer " ++ clerkToken stored)
    ∧ (onboardingStatusRequest stored).headers.lookup "Authorization"
      = some ("Bearer " ++ clerkToken stored)
    ∧ clerkToken none = "dev_token"
    ∧ (∀ t : String, t ≠ "" → clerkToken (some t) = t) := by
  refine ⟨rfl, rfl, rfl, fun t ht => ?_⟩
  simp [clerkToken, ht]

/-- C6 witness: a concrete stored token abc reaches the header, and the
missing-token request carries the dev_token bearer. -/
theorem claim6_witness :
    (syncStatusRequest (some "abc")).headers.lookup "Authorization" = some ("Bearer " ++ "abc")
    ∧ (onboardingStatusRequest none).headers.lookup "Authorization"
      = some ("Bearer " ++ clerkToken none) :=
  ⟨by
    have h := claim6_bearer_headers (some "abc")
    rw [h.1, h.2.2.2 "abc" (by decide)],
   (claim6_bearer_headers none).2.1⟩

/-- C7: with Hume credentials absent the auth endpoint yields a 200 carrying
the fixed placeholder token rather than an error, the diagnostics page
classifies exactly that token as a warning, and classifies every other ok
response as a valid token. -/
theorem claim7_mock_token (oauthToken : String) :
    (humeAuth none oauthToken).status = 200
    ∧ (humeAuth none oauthToken).access_token = "mock_token_for_demo_purposes"
    ∧ testAuthClassify (.response true "mock_token_for_demo_purposes") = "warning"
    ∧ (∀ tok, tok ≠ "mock_token_for_demo_purposes" →
        testAuthClassify (.response true tok) = "success") := by
  refine ⟨rfl, rfl, rfl, fun tok h => ?_⟩
  simp [testAuthClassify, h]

/-- C7 witness: a concrete real token is classified success, and the
credential-less call returns the mock literal. -/
theorem claim7_witness :
    (humeAuth none "real_token").access_token = "mock_token_for_demo_purposes"
    ∧ testAuthClassify (.response true "real_token") = "success" :=
  ⟨(claim7_mock_token "real_token").2.1,
   (claim7_mock_token "real_token").2.2.2 "real_token" (by decide)⟩

/-- C8: the handle hook redirects every request whose pathname is not the root
and does not start with the sign-in, sign-up or public-api paths, when no
authenticated userId is present, throwing a 307 to sign-in with the original
pathname as redirect_url; public paths and authenticated requests resolve. -/
theorem claim8_route_guard (pathname : String) (userId : Option String) :
    (pathname ≠ "/" → jsStartsWith pathname "/sign-in" = false →
      jsStartsWith pathname "/sign-up" = false → jsStartsWith pathname "/api/public" = false →
      userId = none →
      handle pathname userId = .redirect 307 ("/sign-in?redirect_url=" ++ pathname))
    ∧ (isPublicRoute pathname = true ∨ userId ≠ none →
      handle pathname userId = .resolve) := by
  constructor
  · intro h1 h2 h3 h4 h5
    have hp : isPublicRoute pathname = false := by
      simp [isPublicRoute, h1, h2, h3, h4]
    simp [handle, hp, h5]
  · intro h
    rcases h with h | h
    · simp [handle, h]
    · simp [handle, h]

/-- C8 witness: the private path /log without a user redirects, the root and a
signed-in user resolve. -/
theorem claim8_witness :
    handle "/log" none = .redirect 307 ("/sign-in?redirect_url=" ++ "/log")
    ∧ handle "/" none = .resolve
    ∧ handle "/log" (some "user_1") = .resolve :=
  ⟨(claim8_route_guard "/log" none).1 (by decide) (by decide) (by decide) (by decide) rfl,
   (claim8_route_guard "/" none).2 (Or.inl (by decide)),
   (claim8_route_guard "/log" (some "user_1")).2 (Or.inr (by simp))⟩

/-! ## Audio upload: base64 payload extraction -/

/-- Splitting at commas never yields an empty group list. -/
theorem splitOnComma_ne_nil (l : List Char) : splitOnComma l ≠ [] := by
  cases l with
  | nil => simp [splitOnComma]
  | cons c cs =>
    simp only [splitOnComma]
    split_ifs
    · simp
    · cases h : splitOnComma cs <;> simp

/-- Every base64 alphabet character differs from the comma. -/
theorem b64Char_ne_comma (n : Nat) : b64Char n ≠ ',' := by
  have h : b64Char n ∈ base64Table ∨ b64Char n = 'A' := by
    unfold b64Char
    rcases Nat.lt_or_ge n base64Table.length with h | h
    · left
      rw [List.getD_eq_getElem base64Table 'A' h]
      exact List.getElem_mem h
    · right
      exact List.getD_eq_default base64Table 'A' h
  rcases h with h | h
  · intro hc
    rw [hc] at h
    revert h
    decide
  · rw [h]
    decide

/-- The base64 encoding of a byte list contains no comma. -/
theorem base64Chunks_no_comma : ∀ (bytes : List Nat), ∀ c ∈ base64Chunks bytes, c ≠ ','
  | [] => by simp [base64Chunks]
  | [a] => by
    simp only [base64Chunks, List.mem_cons, List.not_mem_nil, or_false]
    rintro c (h | h | h | h) <;> subst h <;> first | exact b64Char_ne_comma _ | decide
  | [a, b] => by
    simp only [base64Chunks, List.mem_cons, List.not_mem_nil, or_false]
    rintro c (h | h | h | h) <;> subst h <;> first | exact b64Char_ne_comma _ | decide
  | a :: b :: c0 :: rest => by
    simp only [base64Chunks, List.mem_cons]
    rintro c (h | h | h | h | h)
    · subst h; exact b64Char_ne_comma _
    · subst h; exact b64Char_ne_comma _
    · subst h; exact b64Char_ne_comma _
    · subst h; exact b64Char_ne_comma _
    · exact base64Chunks_no_comma rest c h

/-- Splitting a comma-free list followed by anything keeps the comma-free part
glued to the first group of the rest. -/
theorem splitOnComma_append (l1 l2 : List Char) (h : ∀ c ∈ l1, c ≠ ',') :
    splitOnComma (l1 ++ l2)
      = (l1 ++ (splitOnComma l2).headD []) :: (splitOnComma l2).tail := by
  induction l1 with
  | nil =>
    simp only [List.nil_append]
    cases hs : splitOnComma l2 with
    | nil => exact absurd hs (splitOnComma_ne_nil l2)
    | cons g gs => simp
  | cons c cs ih =>
    have hc : c ≠ ',' := h c (by simp)
    have ih2 := ih (fun x hx => h x (by simp [hx]))
    simp only [List.cons_append, splitOnComma, if_neg hc]
    rw [show cs.append l2 = cs ++ l2 from rfl, ih2]

/-- A comma-free list splits into the single group holding it whole. -/
theorem splitOnComma_of_no_comma (l : List Char) (h : ∀ c ∈ l, c ≠ ',') :
    splitOnComma l = [l] := by
  have := splitOnComma_append l [] h
  simpa [splitOnComma] using this

/-- blobToBase64 recovers exactly the base64 payload of the data url. -/
theorem blobToBase64_eq (bytes : List Nat) : blobToBase64 bytes = base64Encode bytes := by
  have hdata : (dataURL "audio/webm" bytes).data
      = ("data:audio/webm;base64").data ++ ',' :: base64Chunks bytes := by
    show ("data:" ++ "audio/webm" ++ ";base64," ++ base64Encode bytes).data = _
    rw [String.data_append]
    rfl
  have hpre : ∀ c ∈ ("data:audio/webm;base64").data, c ≠ ',' := by decide
  have hpay : splitOnComma (base64Chunks bytes) = [base64Chunks bytes] :=
    splitOnComma_of_no_comma _ (base64Chunks_no_comma bytes)
  unfold blobToBase64 jsSplitCommaSecond
  rw [hdata, splitOnComma_append _ _ hpre]
  simp only [splitOnComma, if_pos rfl, hpay]
  rfl

/-- C5: blobToBase64 returns the base64 payload of the blob data url (the part
after the comma), and sendBaselineToBackend sends a JSON body whose
audio_chunks field is the list of exactly those base64 strings. -/
theorem claim5_audio_base64 (bytes : List Nat) (stored : Option String)
    (chunks : List (List Nat)) :
    blobToBase64 bytes = base64Encode bytes
    ∧ (sendBaselineToBackend stored chunks).audio_chunks = chunks.map blobToBase64
    ∧ (sendBaselineToBackend stored chunks).audio_chunks = chunks.map base64Encode := by
  refine ⟨blobToBase64_eq bytes, rfl, ?_⟩
  show chunks.map blobToBase64 = chunks.map base64Encode
  exact List.map_congr_left (fun b _ => blobToBase64_eq b)

/-! ## JSON round trip: string bodies, keywords and numbers -/

/-- Scanning an escaped string body up to the closing quote undoes the
escaping and leaves the rest. -/
theorem parseStringBody_escape (s rest : List Char) :
    parseStringBody (escapeChars s ++ '"' :: rest) = some (s, rest) := by
  induction s with
  | nil =>
    rw [show escapeChars [] ++ '"' :: rest = '"' :: rest from rfl, parseStringBody.eq_def]
    simp
  | cons c cs ih =>
    by_cases h1 : c = '"'
    · subst h1
      rw [show escapeChars ('"' :: cs) ++ '"' :: rest
            = '\\' :: '"' :: (escapeChars cs ++ '"' :: rest) by simp [escapeChars],
          parseStringBody.eq_def]
      simp [ih]
    · by_cases h2 : c = '\\'
      · subst h2
        rw [show escapeChars ('\\' :: cs) ++ '"' :: rest
              = '\\' :: '\\' :: (escapeChars cs ++ '"' :: rest) by simp [escapeChars],
            parseStringBody.eq_def]
        simp [ih]
      · rw [show escapeChars (c :: cs) ++ '"' :: rest
              = c :: (escapeChars cs ++ '"' :: rest) by simp [escapeChars, h1, h2],
            parseStringBody.eq_def]
        simp [h1, h2, ih]

/-- Matching a literal that is present consumes exactly it. -/
theorem dropLit_append (lit rest : List Char) : dropLit lit (lit ++ rest) = some rest := by
  induction lit with
  | nil => rfl
  | cons c cs ih => simp [dropLit, ih]

/-- Digit characters are digits. -/
theorem digitChar_isDigit (n : Nat) (h : n < 10) : (Nat.digitChar n).isDigit = true := by
  interval_cases n <;> decide

/-- Digit characters decode back to their value. -/
theorem digitChar_val (n : Nat) (h : n < 10) : (Nat.digitChar n).toNat - 48 = n := by
  interval_cases n <;> decide

/-- Appending one digit multiplies the decoded value by ten. -/
theorem digitsVal_append_single (l : List Char) (c : Char) :
    digitsVal (l ++ [c]) = digitsVal l * 10 + (c.toNat - 48) := by
  simp [digitsVal, List.foldl_append]

/-- With fuel at least the number, the fueled decimal printer emits a
non-empty digit run decoding back to the number. -/
theorem natCharsAux_spec (f : Nat) : ∀ n ≤ f,
    (∀ c ∈ natCharsAux (f+1) n, c.isDigit = true)
    ∧ natCharsAux (f+1) n ≠ []
    ∧ digitsVal (natCharsAux (f+1) n) = n := by
  induction f with
  | zero =>
    intro n hn
    have h0 : n = 0 := by omega
    subst h0
    refine ⟨?_, by decide, by decide⟩
    decide
  | succ f ih =>
    intro n hn
    by_cases h10 : n < 10
    · simp only [natCharsAux, if_pos h10]
      refine ⟨?_, by simp, ?_⟩
      · intro c hc
        simp only [List.mem_singleton] at hc
        subst hc
        exact digitChar_isDigit n h10
      · simp only [digitsVal, List.foldl_cons, List.foldl_nil, Nat.zero_mul, Nat.zero_add]
        exact digitChar_val n h10
    · have hrec := ih (n / 10) (by omega)
      rw [show natCharsAux (f + 1 + 1) n
            = natCharsAux (f + 1) (n / 10) ++ [Nat.digitChar (n % 10)] by
          rw [natCharsAux.eq_def]
          simp [h10]]
      refine ⟨?_, by simp [hrec.2.1], ?_⟩
      · intro c hc
        rcases List.mem_append.1 hc with h | h
        · exact hrec.1 c h
        · simp only [List.mem_singleton] at h
          subst h
          exact digitChar_isDigit _ (by omega)
      · rw [digitsVal_append_single, hrec.2.2, digitChar_val _ (by omega)]
        omega

/-- The decimal printer emits a non-empty digit run decoding to its input. -/
theorem natChars_spec (n : Nat) :
    (∀ c ∈ natChars n, c.isDigit = true) ∧ natChars n ≠ [] ∧ digitsVal (natChars n) = n :=
  natCharsAux_spec n n le_rfl

/-- The digit scanner splits a digit run from a rest not starting with a
digit. -/
theorem takeDigits_append (l r : List Char) (hl : ∀ c ∈ l, c.isDigit = true)
    (hr : ∀ c cs, r = c :: cs → c.isDigit = false) :
    takeDigits (l ++ r) = (l, r) := by
  induction l with
  | nil =>
    cases r with
    | nil => rfl
    | cons c cs => simp [takeDigits, hr c cs rfl]
  | cons c cs ih =>
    have hc : c.isDigit = true := hl c (by simp)
    have ih2 := ih (fun x hx => hl x (by simp [hx]))
    simp [takeDigits, hc, ih2]

/-- A well-delimited rest never starts with a digit. -/
theorem delimOk_not_digit (r : List Char) (h : delimOk r = true) :
    ∀ c cs, r = c :: cs → c.isDigit = false := by
  intro c cs hr
  subst hr
  revert h
  rw [delimOk.eq_def]
  intro h
  simp only [Bool.or_eq_true, decide_eq_true_eq] at h
  rcases h with (h | h) | h <;> subst h <;> decide

/-- Digits start none of the keyword, string, array, object or sign
branches. -/
theorem isDigit_branch (c : Char) (h : c.isDigit = true) :
    c ≠ '"' ∧ c ≠ '[' ∧ c ≠ lbraceChar ∧ c ≠ 't' ∧ c ≠ 'f' ∧ c ≠ 'n' ∧ c ≠ '-' := by
  refine ⟨?_, ?_, ?_, ?_, ?_, ?_, ?_⟩ <;>
    (intro hc; rw [hc] at h; exact absurd h (by decide))

/-- Value sizes are positive. -/
theorem jsize_pos (v : Json) : 1 ≤ jsize v := by
  cases v <;> simp [jsize]

/-- Every serialized value starts with a value-start character. -/
theorem printJson_head (v : Json) :
    ∃ c l, printJson v = c :: l ∧ isValueStart c = true := by
  cases v with
  | null => exact ⟨'n', _, rfl, by decide⟩
  | bool b =>
    cases b
    · exact ⟨'f', _, rfl, by decide⟩
    · exact ⟨'t', _, rfl, by decide⟩
  | num n =>
    by_cases h : n < 0
    · exact ⟨'-', natChars n.natAbs, by simp [printJson, intChars, h], by decide⟩
    · obtain ⟨hd, hne, _⟩ := natChars_spec n.toNat
      obtain ⟨c, l, hcl⟩ := List.exists_cons_of_ne_nil hne
      refine ⟨c, l, by simp [printJson, intChars, h, hcl], ?_⟩
      have hdig : c.isDigit = true := hd c (by simp [hcl])
      simp [isValueStart, hdig]
  | str s => exact ⟨'"', _, rfl, by decide⟩
  | arr es => exact ⟨'[', _, rfl, by decide⟩
  | obj fs => exact ⟨lbraceChar, _, rfl, by decide⟩

/-- Value-start characters are not closers. -/
theorem isValueStart_ne (c : Char) (h : isValueStart c = true) :
    c ≠ ']' ∧ c ≠ rbraceChar := by
  constructor <;> intro hc <;> subst hc <;> revert h <;> decide

/-- At every fuel, parsing the printed form of a value, element list or field
list followed by a well-delimited rest recovers it exactly, provided the fuel
exceeds the size. -/
theorem roundTrip (f : Nat) : RoundTrip f := by
  induction f with
  | zero =>
    exact ⟨fun v rest h _ => absurd h (Nat.not_lt_zero _),
           fun es rest _ h => absurd h (Nat.not_lt_zero _),
           fun fs rest _ h => absurd h (Nat.not_lt_zero _)⟩
  | succ f ih =>
    obtain ⟨ihV, ihE, ihF⟩ := ih
    refine ⟨?_, ?_, ?_⟩
    · intro v rest hsz hrest
      cases v with
      | null =>
        rw [show printJson .null ++ rest = 'n' :: ('u' :: 'l' :: 'l' :: rest) from rfl,
            parseVal.eq_def]
        have h := dropLit_append ('u' :: 'l' :: 'l' :: []) rest
        simp only [List.cons_append, List.nil_append] at h
        simp [h, show 'n' ≠ lbraceChar by decide]
      | bool b =>
        cases b
        · rw [show printJson (.bool false) ++ rest
                = 'f' :: ('a' :: 'l' :: 's' :: 'e' :: rest) from rfl,
              parseVal.eq_def]
          have h := dropLit_append ('a' :: 'l' :: 's' :: 'e' :: []) rest
          simp only [List.cons_append, List.nil_append] at h
          simp [h, show 'f' ≠ lbraceChar by decide]
        · rw [show printJson (.bool true) ++ rest
                = 't' :: ('r' :: 'u' :: 'e' :: rest) from rfl,
              parseVal.eq_def]
          have h := dropLit_append ('r' :: 'u' :: 'e' :: []) rest
          simp only [List.cons_append, List.nil_append] at h
          simp [h, show 't' ≠ lbraceChar by decide]
      | num n =>
        rcases lt_or_le n 0 with hneg | hpos
        · obtain ⟨hdig, hne, hval⟩ := natChars_spec n.natAbs
          obtain ⟨d, ds, hds⟩ := List.exists_cons_of_ne_nil hne
          have hshape : printJson (.num n) ++ rest = '-' :: ((d :: ds) ++ rest) := by
            simp [printJson, intChars, hneg, hds]
          have htd : takeDigits ((d :: ds) ++ rest) = (d :: ds, rest) :=
            takeDigits_append (d :: ds) rest (hds ▸ hdig) (delimOk_not_digit rest hrest)
          simp only [List.cons_append] at htd
          have hcast : -((digitsVal (d :: ds) : Nat) : Int) = n := by
            rw [← hds, hval]
            omega
          rw [hshape, parseVal.eq_def]
          simp [htd, hcast, show '-' ≠ lbraceChar by decide]
        · obtain ⟨hdig, hne, hval⟩ := natChars_spec n.toNat
          obtain ⟨d, ds, hds⟩ := List.exists_cons_of_ne_nil hne
          have hshape : printJson (.num n) ++ rest = d :: (ds ++ rest) := by
            simp [printJson, intChars, not_lt.mpr hpos, hds]
          have hd7 := isDigit_branch d (hdig d (by simp [hds]))
          have htd : takeDigits ((d :: ds) ++ rest) = (d :: ds, rest) :=
            takeDigits_append (d :: ds) rest (hds ▸ hdig) (delimOk_not_digit rest hrest)
          simp only [List.cons_append] at htd
          have hcast : ((digitsVal (d :: ds) : Nat) : Int) = n := by
            rw [← hds, hval]
            omega
          rw [hshape, parseVal.eq_def]
          simp [hd7.1, hd7.2.1, hd7.2.2.1, hd7.2.2.2.1, hd7.2.2.2.2.1, hd7.2.2.2.2.2.1,
                hd7.2.2.2.2.2.2, hdig d (by simp [hds]), htd, hcast]
      | str s =>
        rw [show printJson (.str s) ++ rest
              = '"' :: (escapeChars s.data ++ '"' :: rest) by simp [printJson],
            parseVal.eq_def]
        simp [parseStringBody_escape]
      | arr es =>
        cases es with
        | nil =>
          rw [show printJson (.arr []) ++ rest = '[' :: (']' :: rest) by
                simp [printJson, printElems],
              parseVal.eq_def]
          simp
        | cons x xs =>
          obtain ⟨c, l, hcl, hvs⟩ := printJson_head x
          have hcne := isValueStart_ne c hvs
          have hsize : jsizeList (x :: xs) < f := by
            simp only [jsize] at hsz
            omega
          have hres : parseElems f (printElems (x :: xs) ++ ']' :: rest)
              = some (x :: xs, rest) := ihE (x :: xs) rest (by simp) hsize
          have hhead : ∃ t, printElems (x :: xs) ++ ']' :: rest = c :: t := by
            cases xs with
            | nil => exact ⟨l ++ ']' :: rest, by simp [printElems, hcl]⟩
            | cons y ys =>
              exact ⟨(l ++ ',' :: printElems (y :: ys)) ++ ']' :: rest,
                by simp [printElems, hcl]⟩
          obtain ⟨t, ht⟩ := hhead
          rw [show printJson (.arr (x :: xs)) ++ rest
                = '[' :: (printElems (x :: xs) ++ ']' :: rest) by simp [printJson],
              parseVal.eq_def, ht]
          rw [ht] at hres
          simp [hcne.1, hres]
      | obj fs =>
        cases fs with
        | nil =>
          have hl1 : lbraceChar ≠ '"' := by decide
          have hl2 : lbraceChar ≠ '[' := by decide
          rw [show printJson (.obj []) ++ rest = lbraceChar :: (rbraceChar :: rest) by
                simp [printJson, printFields],
              parseVal.eq_def]
          simp [hl1, hl2]
        | cons kv xs =>
          obtain ⟨k, v⟩ := kv
          have hl1 : lbraceChar ≠ '"' := by decide
          have hl2 : lbraceChar ≠ '[' := by decide
          have hq : ¬('"' = rbraceChar) := by decide
          have hsize : jsizeFields ((k, v) :: xs) < f := by
            simp only [jsize] at hsz
            omega
          have hres : parseFields f (printFields ((k, v) :: xs) ++ rbraceChar :: rest)
              = some ((k, v) :: xs, rest) := ihF ((k, v) :: xs) rest (by simp) hsize
          have hhead : ∃ t, printFields ((k, v) :: xs) ++ rbraceChar :: rest = '"' :: t := by
            cases xs with
            | nil => exact ⟨(escapeChars k.data ++ '"' :: ':' :: printJson v)
                ++ rbraceChar :: rest, by simp [printFields]⟩
            | cons kv2 ys =>
              exact ⟨((escapeChars k.data ++ '"' :: ':' :: printJson v)
                ++ ',' :: printFields (kv2 :: ys)) ++ rbraceChar :: rest,
                by simp [printFields]⟩
          obtain ⟨t, ht⟩ := hhead
          rw [show printJson (.obj ((k, v) :: xs)) ++ rest
                = lbraceChar :: (printFields ((k, v) :: xs) ++ rbraceChar :: rest) by
                simp [printJson],
              parseVal.eq_def, ht]
          rw [ht] at hres
          simp [hl1, hl2, hq, hres]
    · intro es rest hne hsz
      cases es with
      | nil => exact absurd rfl hne
      | cons x xs =>
        cases xs with
        | nil =>
          have hsize : jsize x < f := by
            simp only [jsizeList] at hsz
            omega
          have h1 : parseVal f (printJson x ++ ']' :: rest) = some (x, ']' :: rest) :=
            ihV x (']' :: rest) hsize rfl
          rw [show printElems [x] ++ ']' :: rest = printJson x ++ ']' :: rest by
                simp [printElems],
              parseElems.eq_def]
          simp [h1]
        | cons y ys =>
          have hsx : jsize x < f := by
            simp only [jsizeList] at hsz
            omega
          have hsys : jsizeList (y :: ys) < f := by
            simp only [jsizeList] at hsz
            simp only [jsizeList]
            omega
          have h1 : parseVal f (printJson x ++ ',' :: (printElems (y :: ys) ++ ']' :: rest))
              = some (x, ',' :: (printElems (y :: ys) ++ ']' :: rest)) :=
            ihV x _ hsx rfl
          have h2 : parseElems f (printElems (y :: ys) ++ ']' :: rest)
              = some (y :: ys, rest) := ihE (y :: ys) rest (by simp) hsys
          rw [show printElems (x :: y :: ys) ++ ']' :: rest
                = printJson x ++ ',' :: (printElems (y :: ys) ++ ']' :: rest) by
                simp [printElems],
              parseElems.eq_def]
          simp [h1, h2]
    · intro fs rest hne hsz
      cases fs with
      | nil => exact absurd rfl hne
      | cons kv xs =>
        obtain ⟨k, v⟩ := kv
        have hrb1 : ¬(rbraceChar = ',') := by decide
        cases xs with
        | nil =>
          have hsize : jsize v < f := by
            simp only [jsizeFields] at hsz
            omega
          have hsb := parseStringBody_escape k.data (':' :: (printJson v ++ rbraceChar :: rest))
          have h1 : parseVal f (printJson v ++ rbraceChar :: rest)
              = some (v, rbraceChar :: rest) := ihV v (rbraceChar :: rest) hsize rfl
          rw [show printFields [(k, v)] ++ rbraceChar :: rest
                = '"' :: (escapeChars k.data ++ '"' :: (':' :: (printJson v ++ rbraceChar :: rest))) by
                simp [printFields],
              parseFields.eq_def]
          simp [hsb, h1, hrb1]
        | cons kv2 ys =>
          obtain ⟨k2, v2⟩ := kv2
          have hsv : jsize v < f := by
            simp only [jsizeFields] at hsz
            omega
          have hsys : jsizeFields ((k2, v2) :: ys) < f := by
            simp only [jsizeFields] at hsz
            simp only [jsizeFields]
            omega
          have hsb := parseStringBody_escape k.data
            (':' :: (printJson v ++ ',' :: (printFields ((k2, v2) :: ys) ++ rbraceChar :: rest)))
          have h1 : parseVal f
              (printJson v ++ ',' :: (printFields ((k2, v2) :: ys) ++ rbraceChar :: rest))
              = some (v, ',' :: (printFields ((k2, v2) :: ys) ++ rbraceChar :: rest)) :=
            ihV v _ hsv rfl
          have h2 : parseFields f (printFields ((k2, v2) :: ys) ++ rbraceChar :: rest)
              = some ((k2, v2) :: ys, rest) := ihF ((k2, v2) :: ys) rest (by simp) hsys
          rw [show printFields ((k, v) :: (k2, v2) :: ys) ++ rbraceChar :: rest
                = '"' :: (escapeChars k.data ++ '"' :: (':' :: (printJson v
                    ++ ',' :: (printFields ((k2, v2) :: ys) ++ rbraceChar :: rest)))) by
                simp [printFields],
              parseFields.eq_def]
          simp [hsb, h1, h2]

/-- The size measure of a value never exceeds the length of its printed form,
so length-based fuel suffices. -/
theorem jsize_le_length (f : Nat) :
    (∀ v, jsize v < f → jsize v ≤ (printJson v).length)
    ∧ (∀ es, jsizeList es < f → jsizeList es ≤ (printElems es).length + 1)
    ∧ (∀ fs, jsizeFields fs < f → jsizeFields fs ≤ (printFields fs).length + 1) := by
  induction f with
  | zero =>
    exact ⟨fun v h => absurd h (Nat.not_lt_zero _),
           fun es h => absurd h (Nat.not_lt_zero _),
           fun fs h => absurd h (Nat.not_lt_zero _)⟩
  | succ f ih =>
    obtain ⟨ihV, ihE, ihF⟩ := ih
    refine ⟨?_, ?_, ?_⟩
    · intro v hsz
      cases v with
      | null => simp [jsize, printJson]
      | bool b => cases b <;> simp [jsize, printJson]
      | num n =>
        rcases lt_or_le n 0 with h | h
        · simp only [jsize, printJson, intChars, if_pos h, List.length_cons]
          omega
        · obtain ⟨_, hne, _⟩ := natChars_spec n.toNat
          simp only [jsize, printJson, intChars, if_neg (not_lt.mpr h)]
          have := List.length_pos.mpr hne
          omega
      | str s =>
        simp only [jsize, printJson, List.length_cons, List.length_append]
        omega
      | arr es =>
        simp only [jsize] at hsz
        have h2 := ihE es (by omega)
        simp only [jsize, printJson, List.length_cons, List.length_append, List.length_singleton]
        omega
      | obj fs =>
        simp only [jsize] at hsz
        have h2 := ihF fs (by omega)
        simp only [jsize, printJson, List.length_cons, List.length_append, List.length_singleton]
        omega
    · intro es hsz
      cases es with
      | nil => simp [jsizeList, printElems]
      | cons x xs =>
        cases xs with
        | nil =>
          simp only [jsizeList] at hsz
          have h1 := ihV x (by omega)
          simp only [jsizeList, printElems]
          omega
        | cons y ys =>
          simp only [jsizeList] at hsz
          have h1 := ihV x (by omega)
          have h2 := ihE (y :: ys) (by simp only [jsizeList]; omega)
          simp only [jsizeList] at h2
          simp only [jsizeList, printElems, List.length_append, List.length_cons]
          omega
    · intro fs hsz
      cases fs with
      | nil => simp [jsizeFields, printFields]
      | cons kv xs =>
        obtain ⟨k, v⟩ := kv
        cases xs with
        | nil =>
          simp only [jsizeFields] at hsz
          have h1 := ihV v (by omega)
          simp only [jsizeFields, printFields, List.length_cons, List.length_append]
          omega
        | cons kv2 ys =>
          simp only [jsizeFields] at hsz
          have h1 := ihV v (by omega)
          have h2 := ihF (kv2 :: ys) (by simp only [jsizeFields]; omega)
          simp only [jsizeFields] at h2
          simp only [jsizeFields, printFields, List.length_cons, List.length_append]
          omega

/-- Round trip of the store serialization: JSON.parse of JSON.stringify gives
the value back. -/
theorem stringify_parse (v : Json) : jsonParse (jsonStringify v) = some v := by
  have hb : jsize v ≤ (printJson v).length :=
    (jsize_le_length (jsize v + 1)).1 v (Nat.lt_succ_self _)
  have h := (roundTrip ((printJson v).length + 1)).1 v [] (by omega) rfl
  rw [List.append_nil] at h
  unfold jsonParse jsonStringify
  rw [show (String.mk (printJson v)).data = printJson v from rfl, h]

/-- Reading back the key just written returns the written value. -/
theorem getItem_setItem (storage : Storage) (key value : String) :
    getItem (setItem storage key value) key = some value := by
  induction storage with
  | nil => simp [setItem, getItem]
  | cons p rest ih =>
    obtain ⟨k, v⟩ := p
    by_cases h : k = key
    · simp [setItem, getItem, h]
    · simp [setItem, getItem, h, ih]

/-- Serialized values are never the empty string. -/
theorem jsonStringify_ne_empty (v : Json) : jsonStringify v ≠ "" := by
  obtain ⟨c, l, hcl, _⟩ := printJson_head v
  intro h
  have hd := congrArg String.data h
  rw [show (jsonStringify v).data = printJson v from rfl, hcl] at hd
  simp at hd

/-- C10 counterexample: the claim that an unparsable stored entry initializes
the store to the start value fails for createPersistedStore — with the literal
x stored under the key, its unguarded JSON.parse throws, so the construction
does not produce the start value. -/
theorem claim10_counterexample :
    createPersistedStore "k" Json.null [("k", "x")] ≠ Except.ok Json.null := by
  have h : createPersistedStore "k" Json.null [("k", "x")] = Except.error "SyntaxError" := rfl
  rw [h]
  intro hc
  exact Except.noConfusion hc

/-- C10 as amended: a value written to a persisted store is stored as its JSON
serialization under the key, and constructing either store again for the same
key initializes it to an equal value; a missing stored entry initializes
either store to the given start value; an unparsable stored entry initializes
createPersistentStore to the start value but makes createPersistedStore throw
during initialization, since its JSON.parse call is not wrapped in
try/catch. -/
theorem claim10_persisted_roundtrip (key : String) (startValue : Json)
    (storage : Storage) (v : Json) :
    getItem (persistValue storage key v) key = some (jsonStringify v)
    ∧ createPersistentStore key startValue (persistValue storage key v) = v
    ∧ createPersistedStore key startValue (persistValue storage key v) = .ok v
    ∧ (getItem storage key = none →
        createPersistentStore key startValue storage = startValue
        ∧ createPersistedStore key startValue storage = .ok startValue)
    ∧ (∀ s, getItem storage key = some s → s ≠ "" → jsonParse s = none →
        createPersistentStore key startValue storage = startValue
        ∧ createPersistedStore key startValue storage = Except.error "SyntaxError") := by
  refine ⟨getItem_setItem storage key _, ?_, ?_, fun h => ?_, fun s h hs hp => ?_⟩
  · rw [createPersistentStore, persistValue, getItem_setItem storage key _]
    simp [jsonStringify_ne_empty v, stringify_parse v]
  · rw [createPersistedStore, persistValue, getItem_setItem storage key _]
    simp [jsonStringify_ne_empty v, stringify_parse v]
  · rw [createPersistentStore, h]
    exact ⟨rfl, by rw [createPersistedStore, h]⟩
  · rw [createPersistentStore, h]
    refine ⟨by simp [hs, hp], ?_⟩
    rw [createPersistedStore, h]
    simp [hs, hp]

/-- C10 witness: writing the number one under a key and re-reading recovers
it, and a concrete unparsable entry falls back (persistent) or throws
(persisted). -/
theorem claim10_witness :
    createPersistentStore "k" Json.null (persistValue [] "k" (Json.num 1)) = Json.num 1
    ∧ createPersistedStore "k" Json.null (persistValue [] "k" (Json.num 1)) = .ok (Json.num 1)
    ∧ createPersistentStore "k" Json.null [("k", "x")] = Json.null
    ∧ createPersistedStore "k" Json.null [("k", "x")] = Except.error "SyntaxError" :=
  ⟨(claim10_persisted_roundtrip "k" Json.null [] (Json.num 1)).2.1,
   (claim10_persisted_roundtrip "k" Json.null [] (Json.num 1)).2.2.1,
   ((claim10_persisted_roundtrip "k" Json.null [("k", "x")] (Json.num 1)).2.2.2.2
      "x" rfl (by decide) rfl).1,
   ((claim10_persisted_roundtrip "k" Json.null [("k", "x")] (Json.num 1)).2.2.2.2
      "x" rfl (by decide) rfl).2⟩

end Migru
